import Mathlib

/-!
Verification of the multi-agent product-evaluation pipeline
(`src/orchestrator.py`, `src/agent_selector.py`, `src/utils/llm.py`,
`src/utils/ollama_utils.py`, `src/agents/*.py`) against its
natural-language specification.

Modelling conventions:
* Python floats are modelled as rationals (`ℚ`); all the aggregation
  arithmetic in the source is plain sum-and-divide, so the algebraic
  structure is preserved exactly.
* Python dicts with string keys are modelled as association lists
  (`List (String × β)`); every dict built by the code under scrutiny has
  pairwise-distinct keys, so first-match lookup agrees with dict lookup.
* Fallible Python code is modelled in `Except PyErr`; an uncaught Python
  exception is an `Except.error`.
* The behaviour of the external LLM backend (network) is an explicit
  input parameter of the modelled functions.
-/

/-- Python exception kinds that the modelled code can raise or catch. -/
inductive PyErr where
  | attributeError
  | indexError
  | typeError
  | valueError
  | nameError
  | validationError
deriving Repr, DecidableEq

/-- First-match lookup in an association list (Python `dict.get` for the
dicts in this codebase, whose keys are pairwise distinct). -/
def alistGet {β : Type} : List (String × β) → String → Option β
  | [], _ => none
  | kv :: rest, key => if kv.1 = key then some kv.2 else alistGet rest key

/-- The keys of an association list. -/
def alistKeys {β : Type} (m : List (String × β)) : List String :=
  m.map Prod.fst

/-- Does `p` lead (start) the character list `s`? -/
def leadsWith : List Char → List Char → Bool
  | [], _ => true
  | _ :: _, [] => false
  | p :: ps, c :: cs => p = c && leadsWith ps cs

/-- Does the character list `p` occur contiguously inside `s`?
(Python `p in s` for strings.) -/
def occursIn (p : List Char) : List Char → Bool
  | [] => leadsWith p []
  | c :: cs => leadsWith p (c :: cs) || occursIn p cs

/-- Characters after the first occurrence of `p`, or `none` when `p`
does not occur.  (The tail that Python `s.split(p)[1:]` starts from.) -/
def afterFirst (p : List Char) : List Char → Option (List Char)
  | [] => if leadsWith p [] then some [] else none
  | c :: cs =>
      if leadsWith p (c :: cs) then some ((c :: cs).drop p.length)
      else afterFirst p cs

/-- Characters up to (excluding) the next occurrence of `p`, or all of
them when `p` does not occur again. -/
def upToNext (p : List Char) : List Char → List Char
  | [] => []
  | c :: cs => if leadsWith p (c :: cs) then [] else c :: upToNext p cs

/-! ## Data model: per-persona signal records (src/agents/... .py) -/

/-- `SamAltmanSignal` (src/agents/sam_altman.py). -/
structure SamAltmanSignal where
  opportunity_score : ℚ
  market_potential : ℚ
  technical_feasibility : ℚ
  reasoning : String
  key_insights : List String
  potential_risks : List String
deriving Repr, DecidableEq

/-- `DemisHassabisSignal` (src/agents/demis_hassabis.py). -/
structure DemisHassabisSignal where
  scientific_breakthrough_potential : ℚ
  technical_advancement : ℚ
  research_feasibility : ℚ
  reasoning : String
  key_breakthroughs : List String
  research_challenges : List String
deriving Repr, DecidableEq

/-- `ElonMuskSignal` (src/agents/elon_musk.py). -/
structure ElonMuskSignal where
  opportunity_score : ℚ
  market_potential : ℚ
  technical_feasibility : ℚ
  reasoning : String
  key_insights : List String
  potential_risks : List String
deriving Repr, DecidableEq

/-- `AdamDAngeloSignal` (src/agents/adam_dangelo.py). -/
structure AdamDAngeloSignal where
  platform_potential : ℚ
  ai_infrastructure : ℚ
  social_impact : ℚ
  reasoning : String
  key_features : List String
  platform_challenges : List String
deriving Repr, DecidableEq

/-- `DanielGrossSignal` (src/agents/daniel_gross.py). -/
structure DanielGrossSignal where
  startup_potential : ℚ
  ai_infrastructure : ℚ
  market_fit : ℚ
  reasoning : String
  key_advantages : List String
  startup_challenges : List String
deriving Repr, DecidableEq

/-- `SebastianThrunSignal` (src/agents/sebastian_thrun.py). -/
structure SebastianThrunSignal where
  autonomous_systems_score : ℚ
  educational_impact : ℚ
  innovation_potential : ℚ
  reasoning : String
  key_innovations : List String
  technical_challenges : List String
deriving Repr, DecidableEq

/-- `EmadMostaqueSignal` (src/agents/emad_mostaque.py). -/
structure EmadMostaqueSignal where
  infrastructure_score : ℚ
  open_source_potential : ℚ
  community_impact : ℚ
  reasoning : String
  key_infrastructure : List String
  community_challenges : List String
deriving Repr, DecidableEq

/-- `ClementDelangueSignal` (src/agents/clement_delangue.py). -/
structure ClementDelangueSignal where
  ai_innovation_score : ℚ
  practical_application : ℚ
  technical_feasibility : ℚ
  reasoning : String
  key_ai_features : List String
  implementation_challenges : List String
deriving Repr, DecidableEq

/-- `ProjectTimeline` (src/agents/project_advisor.py). -/
structure ProjectTimeline where
  phase1 : String
  phase2 : String
  phase3 : String
  phase4 : String
  total_duration : String
  key_milestones : List String
deriving Repr, DecidableEq

/-- `ProjectRecommendation` (src/agents/project_advisor.py).  Note: the
class declares no field named `recommendations`. -/
structure ProjectRecommendation where
  pursue_project : Bool
  confidence_score : ℚ
  key_factors : List String
  resource_requirements : List String
  timeline : ProjectTimeline
  next_steps : List String
  alternative_suggestions : List String
deriving Repr, DecidableEq

/-- The value stored in one slot of the orchestrator's `agent_insights`
dict: whatever a persona's agent function returned. -/
inductive Insight where
  | altman (s : SamAltmanSignal)
  | hassabis (s : DemisHassabisSignal)
  | musk (s : ElonMuskSignal)
  | dangelo (s : AdamDAngeloSignal)
  | gross (s : DanielGrossSignal)
  | thrun (s : SebastianThrunSignal)
  | mostaque (s : EmadMostaqueSignal)
  | delangue (s : ClementDelangueSignal)
  | advisor (r : ProjectRecommendation)
deriving Repr, DecidableEq

/-- The orchestrator's `agent_insights` dict: persona name ↦ the agent
function's return value, or `none` for a persona whose run raised
(`agent_insights[agent_name] = None`). -/
abbrev InsightsMap : Type := List (String × Option Insight)

/-- `ProductEvaluation` (src/orchestrator.py lines 20-31). -/
structure ProductEvaluation where
  product_idea : String
  overall_score : ℚ
  market_potential : ℚ
  technical_feasibility : ℚ
  innovation_potential : ℚ
  key_insights : List String
  potential_risks : List String
  agent_insights : List (String × Option Insight)
  recommendations : List String
  project_recommendation : Option ProjectRecommendation := none
deriving Repr, DecidableEq

/-! ## Evaluation orchestrator (src/orchestrator.py) -/

/-- `agent_insights.get(k)`: the recorded value of a persona slot, where
both a missing key and a recorded `None` read back as Python `None`. -/
def slotVal (m : InsightsMap) (k : String) : Option Insight :=
  match alistGet m k with
  | some (some i) => some i
  | _ => none

/-- The extracted Sam Altman signal: `isinstance(agent_insights.get("Sam
Altman"), SamAltmanSignal)` is true exactly when the slot holds a
`SamAltmanSignal`. -/
def getAltman (m : InsightsMap) : Option SamAltmanSignal :=
  match slotVal m "Sam Altman" with
  | some (.altman s) => some s
  | _ => none

/-- Extracted Demis Hassabis signal (see `getAltman`). -/
def getHassabis (m : InsightsMap) : Option DemisHassabisSignal :=
  match slotVal m "Demis Hassabis" with
  | some (.hassabis s) => some s
  | _ => none

/-- Extracted Elon Musk signal (see `getAltman`). -/
def getMusk (m : InsightsMap) : Option ElonMuskSignal :=
  match slotVal m "Elon Musk" with
  | some (.musk s) => some s
  | _ => none

/-- Extracted Adam DAngelo signal (see `getAltman`). -/
def getDangelo (m : InsightsMap) : Option AdamDAngeloSignal :=
  match slotVal m "Adam D\x27Angelo" with
  | some (.dangelo s) => some s
  | _ => none

/-- Extracted Daniel Gross signal (see `getAltman`). -/
def getGross (m : InsightsMap) : Option DanielGrossSignal :=
  match slotVal m "Daniel Gross" with
  | some (.gross s) => some s
  | _ => none

/-- Extracted Sebastian Thrun signal (see `getAltman`). -/
def getThrun (m : InsightsMap) : Option SebastianThrunSignal :=
  match slotVal m "Sebastian Thrun" with
  | some (.thrun s) => some s
  | _ => none

/-- Extracted Emad Mostaque signal (see `getAltman`). -/
def getMostaque (m : InsightsMap) : Option EmadMostaqueSignal :=
  match slotVal m "Emad Mostaque" with
  | some (.mostaque s) => some s
  | _ => none

/-- Extracted Clement Delangue signal (see `getAltman`). -/
def getDelangue (m : InsightsMap) : Option ClementDelangueSignal :=
  match slotVal m "Clement Delangue" with
  | some (.delangue s) => some s
  | _ => none

/-- Extracted Project Advisor recommendation (see `getAltman`). -/
def getAdvisor (m : InsightsMap) : Option ProjectRecommendation :=
  match slotVal m "Project Advisor" with
  | some (.advisor r) => some r
  | _ => none

/-- The `scores` dict of `_combine_insights` (fixed 13 keys). -/
structure Scores where
  opportunity_score : ℚ
  market_potential : ℚ
  technical_feasibility : ℚ
  scientific_breakthrough_potential : ℚ
  technical_advancement : ℚ
  research_feasibility : ℚ
  startup_potential : ℚ
  ai_infrastructure : ℚ
  platform_potential : ℚ
  social_impact : ℚ
  autonomous_systems_score : ℚ
  educational_impact : ℚ
  innovation_potential : ℚ
deriving Repr, DecidableEq

/-- The `score_counts` dict of `_combine_insights`. -/
structure ScoreCounts where
  opportunity_score : ℕ
  market_potential : ℕ
  technical_feasibility : ℕ
  scientific_breakthrough_potential : ℕ
  technical_advancement : ℕ
  research_feasibility : ℕ
  startup_potential : ℕ
  ai_infrastructure : ℕ
  platform_potential : ℕ
  social_impact : ℕ
  autonomous_systems_score : ℕ
  educational_impact : ℕ
  innovation_potential : ℕ
deriving Repr, DecidableEq

/-- One guarded `scores[k] += x` contribution: the added value when the
persona's signal is present, `0` otherwise. -/
def optScore {α : Type} (x : Option α) (f : α → ℚ) : ℚ :=
  match x with
  | some a => f a
  | none => 0

/-- One guarded `score_counts[k] += 1` contribution. -/
def optCount {α : Type} (x : Option α) : ℕ :=
  match x with
  | some _ => 1
  | none => 0

/-- One guarded `key_insights.extend(...)` contribution. -/
def optStrs {α : Type} (x : Option α) (f : α → List String) : List String :=
  match x with
  | some a => f a
  | none => []

/-- The `scores` dict after the accumulation loop of `_combine_insights`
(lines 128-225): each key holds the sum of the guarded contributions, in
the source's fixed processing order. -/
def sumScores (m : InsightsMap) : Scores where
  opportunity_score :=
    optScore (getAltman m) (·.opportunity_score) + optScore (getMusk m) (·.opportunity_score)
  market_potential :=
    optScore (getAltman m) (·.market_potential) + optScore (getMusk m) (·.market_potential)
      + optScore (getGross m) (·.market_fit) + optScore (getDelangue m) (·.practical_application)
  technical_feasibility :=
    optScore (getAltman m) (·.technical_feasibility) + optScore (getMusk m) (·.technical_feasibility)
      + optScore (getMostaque m) (·.open_source_potential) + optScore (getDelangue m) (·.technical_feasibility)
  scientific_breakthrough_potential :=
    optScore (getHassabis m) (·.scientific_breakthrough_potential)
  technical_advancement :=
    optScore (getHassabis m) (·.technical_advancement)
  research_feasibility :=
    optScore (getHassabis m) (·.research_feasibility)
  startup_potential :=
    optScore (getGross m) (·.startup_potential)
  ai_infrastructure :=
    optScore (getDangelo m) (·.ai_infrastructure) + optScore (getGross m) (·.ai_infrastructure)
      + optScore (getMostaque m) (·.infrastructure_score) + optScore (getDelangue m) (·.ai_innovation_score)
  platform_potential :=
    optScore (getDangelo m) (·.platform_potential)
  social_impact :=
    optScore (getDangelo m) (·.social_impact) + optScore (getMostaque m) (·.community_impact)
  autonomous_systems_score :=
    optScore (getThrun m) (·.autonomous_systems_score)
  educational_impact :=
    optScore (getThrun m) (·.educational_impact)
  innovation_potential :=
    optScore (getThrun m) (·.innovation_potential)

/-- The `score_counts` dict after the accumulation loop. -/
def countScores (m : InsightsMap) : ScoreCounts where
  opportunity_score := optCount (getAltman m) + optCount (getMusk m)
  market_potential :=
    optCount (getAltman m) + optCount (getMusk m) + optCount (getGross m) + optCount (getDelangue m)
  technical_feasibility :=
    optCount (getAltman m) + optCount (getMusk m) + optCount (getMostaque m) + optCount (getDelangue m)
  scientific_breakthrough_potential := optCount (getHassabis m)
  technical_advancement := optCount (getHassabis m)
  research_feasibility := optCount (getHassabis m)
  startup_potential := optCount (getGross m)
  ai_infrastructure :=
    optCount (getDangelo m) + optCount (getGross m) + optCount (getMostaque m) + optCount (getDelangue m)
  platform_potential := optCount (getDangelo m)
  social_impact := optCount (getDangelo m) + optCount (getMostaque m)
  autonomous_systems_score := optCount (getThrun m)
  educational_impact := optCount (getThrun m)
  innovation_potential := optCount (getThrun m)

/-- The averaging step `if score_counts[key] > 0: scores[key] /= score_counts[key]`
applied to one key. -/
def avgField (s : ℚ) (c : ℕ) : ℚ :=
  if 0 < c then s / c else s

/-- The `scores` dict after the averaging loop (lines 227-230). -/
def avgScores (m : InsightsMap) : Scores :=
  let s := sumScores m
  let c := countScores m
  { opportunity_score := avgField s.opportunity_score c.opportunity_score
    market_potential := avgField s.market_potential c.market_potential
    technical_feasibility := avgField s.technical_feasibility c.technical_feasibility
    scientific_breakthrough_potential :=
      avgField s.scientific_breakthrough_potential c.scientific_breakthrough_potential
    technical_advancement := avgField s.technical_advancement c.technical_advancement
    research_feasibility := avgField s.research_feasibility c.research_feasibility
    startup_potential := avgField s.startup_potential c.startup_potential
    ai_infrastructure := avgField s.ai_infrastructure c.ai_infrastructure
    platform_potential := avgField s.platform_potential c.platform_potential
    social_impact := avgField s.social_impact c.social_impact
    autonomous_systems_score := avgField s.autonomous_systems_score c.autonomous_systems_score
    educational_impact := avgField s.educational_impact c.educational_impact
    innovation_potential := avgField s.innovation_potential c.innovation_potential }

/-- `overall_score` (lines 232-241): sum of the six `key_metrics` buckets
divided by their number. -/
def overallScore (s : Scores) : ℚ :=
  (s.opportunity_score + s.market_potential + s.technical_feasibility
    + s.scientific_breakthrough_potential + s.ai_infrastructure + s.innovation_potential) / 6

/-- `key_insights` concatenation (lines 244-279), in the fixed source
order: Altman, Hassabis, Musk, DAngelo, Gross, Thrun, Mostaque, Delangue. -/
def keyInsights (m : InsightsMap) : List String :=
  optStrs (getAltman m) (·.key_insights)
    ++ optStrs (getHassabis m) (·.key_breakthroughs)
    ++ optStrs (getMusk m) (·.key_insights)
    ++ optStrs (getDangelo m) (·.key_features)
    ++ optStrs (getGross m) (·.key_advantages)
    ++ optStrs (getThrun m) (·.key_innovations)
    ++ optStrs (getMostaque m) (·.key_infrastructure)
    ++ optStrs (getDelangue m) (·.key_ai_features)

/-- `potential_risks` concatenation, same fixed order. -/
def potentialRisks (m : InsightsMap) : List String :=
  optStrs (getAltman m) (·.potential_risks)
    ++ optStrs (getHassabis m) (·.research_challenges)
    ++ optStrs (getMusk m) (·.potential_risks)
    ++ optStrs (getDangelo m) (·.platform_challenges)
    ++ optStrs (getGross m) (·.startup_challenges)
    ++ optStrs (getThrun m) (·.technical_challenges)
    ++ optStrs (getMostaque m) (·.community_challenges)
    ++ optStrs (getDelangue m) (·.implementation_challenges)

/-- Behaviour of one `call_llm(prompt)` invocation (src/utils/llm.py
`call_llm` with no output format), as seen by the caller:
* `ok s`   — the backend returned the text `s`;
* `retNone` — the Ollama path caught a transport error and returned `None`;
* `raiseValueError` — no backend is configured, `call_llm` raises
  `ValueError("No LLM available...")`. -/
inductive LLMResult where
  | ok (s : String)
  | retNone
  | raiseValueError
deriving Repr, DecidableEq

/-- The hard-coded fallback list of `_generate_recommendations`
(src/orchestrator.py lines 350-356). -/
def fallbackRecommendations : List String :=
  ["Conduct more detailed market research",
   "Develop a minimum viable product (MVP)",
   "Assemble a diverse team with complementary skills",
   "Create a detailed roadmap with milestones",
   "Establish key performance indicators (KPIs)"]

/-- `_generate_recommendations` (src/orchestrator.py lines 310-356),
from the `call_llm` call onward.  The try block runs
`response.split("\x60\x60\x60")[1]`, then `json.dumps(response)` (a `str`), and the
`isinstance(recommendations, dict)` test is therefore always false, so a
successful try block falls through to the fixed fallback list.  The
`except` clause catches only `(json.JSONDecodeError, TypeError, ValueError)`:
* if the response contains no "\x60\x60\x60" fence, `split(...)[1]` raises an
  uncaught `IndexError`;
* if `call_llm` returned `None`, `None.split` raises an uncaught
  `AttributeError`;
* if `call_llm` itself raised `ValueError`, the handler is entered but its
  second `print` reads the still-unbound local `response`, raising
  `NameError`. -/
def generateRecommendations (llm : LLMResult) : Except PyErr (List String) :=
  match llm with
  | .raiseValueError => .error .nameError
  | .retNone => .error .attributeError
  | .ok s =>
      if occursIn "```".data s.data then .ok fallbackRecommendations
      else .error .indexError

/-- `_combine_insights` (src/orchestrator.py lines 124-308).  When the
Project Advisor slot holds a `ProjectRecommendation`, line 286 reads
`project_recommendation.recommendations`; `ProjectRecommendation` declares
no such field, so the attribute access raises `AttributeError`.  Otherwise
`recommendations` is empty and the `_generate_recommendations` fallback
runs. -/
def combineInsights (product_idea : String) (llm : LLMResult) (m : InsightsMap) :
    Except PyErr ProductEvaluation :=
  let scores := avgScores m
  match getAdvisor m with
  | some _ => .error .attributeError
  | none =>
      match generateRecommendations llm with
      | .error e => .error e
      | .ok recs =>
          .ok { product_idea := product_idea
                overall_score := overallScore scores
                market_potential := scores.market_potential
                technical_feasibility := scores.technical_feasibility
                innovation_potential := scores.scientific_breakthrough_potential
                key_insights := keyInsights m
                potential_risks := potentialRisks m
                agent_insights := m
                recommendations := recs
                project_recommendation := none }

/-- Outcome of calling one persona's agent function on the shared state:
either it returns an `Insight`, or it raises (any uncaught exception in
its pipeline). -/
inductive AgentOutcome where
  | ok (i : Insight)
  | raises
deriving Repr, DecidableEq

/-- The value the orchestrator's try/except records for one persona:
the returned insight, or `None` after a caught exception. -/
def AgentOutcome.toSlot : AgentOutcome → Option Insight
  | .ok i => some i
  | .raises => none

/-- The keys of `self.all_agents` in registration order
(src/orchestrator.py lines 48-58). -/
def allAgentNames : List String :=
  ["Sam Altman", "Demis Hassabis", "Elon Musk", "Adam D\x27Angelo",
   "Daniel Gross", "Sebastian Thrun", "Emad Mostaque", "Clement Delangue",
   "Project Advisor"]

/-- Agent selection in `evaluate_product` (lines 86-94): all agents when
`selected_agents is None`, otherwise the registered agents whose name is
in the selection (unknown requested names are dropped). -/
def enabledAgentNames (selected : Option (List String)) : List String :=
  match selected with
  | none => allAgentNames
  | some sel => allAgentNames.filter (fun n => sel.contains n)

/-- The `agent_insights` collection loop (lines 107-113): every enabled
persona gets a slot; a raising persona's slot is `None`. -/
def runAgents (names : List String) (f : String → AgentOutcome) : InsightsMap :=
  names.map (fun n => (n, (f n).toSlot))

/-- `evaluate_product` (src/orchestrator.py lines 64-122).  `f` gives each
persona's run outcome and `llm` the behaviour of the fallback
recommendation call.  After `_combine_insights` returns, lines 119-120
assign `evaluation.project_recommendation` whenever the Project Advisor
slot holds a truthy value (pydantic does not validate the assignment). -/
def evaluateProduct (product_idea : String) (selected : Option (List String))
    (f : String → AgentOutcome) (llm : LLMResult) : Except PyErr ProductEvaluation :=
  let m := runAgents (enabledAgentNames selected) f
  match combineInsights product_idea llm m with
  | .error e => .error e
  | .ok ev =>
      .ok (match alistGet m "Project Advisor" with
           | some (some (.advisor r)) => { ev with project_recommendation := some r }
           | _ => ev)

/-! ## Agent registry/selector (src/agent_selector.py) -/

/-- `AgentConfig` (src/agent_selector.py lines 11-16). -/
structure AgentConfig where
  name : String
  description : String
  enabled : Bool := true
  priority : Int := 0
deriving Repr, DecidableEq

/-- The registry state `self.agents`: agent id ↦ configuration. -/
abbrev AgentsMap : Type := List (String × AgentConfig)

/-- The built-in default agent configurations (lines 33-80). -/
def defaultAgents : AgentsMap :=
  [("sam_altman",
    { name := "Sam Altman"
      description := "Evaluates startup potential, market fit, and technical feasibility"
      priority := 1 }),
   ("demis_hassabis",
    { name := "Demis Hassabis"
      description := "Analyzes scientific breakthroughs, technical advancement, and research feasibility"
      priority := 2 }),
   ("elon_musk",
    { name := "Elon Musk"
      description := "Assesses innovation potential, market disruption, and technical feasibility"
      priority := 3 }),
   ("adam_dangelo",
    { name := "Adam D\x27Angelo"
      description := "Evaluates platform potential, AI infrastructure, and social impact"
      priority := 4 }),
   ("daniel_gross",
    { name := "Daniel Gross"
      description := "Analyzes startup potential, AI infrastructure, and market fit"
      priority := 5 }),
   ("sebastian_thrun",
    { name := "Sebastian Thrun"
      description := "Evaluates autonomous systems, educational impact, and innovation potential"
      priority := 6 }),
   ("emad_mostaque",
    { name := "Emad Mostaque"
      description := "Assesses AI infrastructure, community impact, and open source potential"
      priority := 7 }),
   ("clement_delangue",
    { name := "Clement Delangue"
      description := "Analyzes AI innovation, technical feasibility, and practical applications"
      priority := 8 }),
   ("project_advisor",
    { name := "Project Advisor"
      description := "Provides final recommendation and timeline based on all other agents"
      priority := 9
      enabled := true })]

/-- One entry of the persisted JSON configuration file: the fields may be
absent, in which case `_load_config` uses `config.get("enabled", True)`
and `config.get("priority", 0)`. -/
structure StoredEntry where
  enabled : Option Bool := none
  priority : Option Int := none
deriving Repr, DecidableEq

/-- The persisted configuration document: agent id ↦ stored entry. -/
abbrev StoredConfig : Type := List (String × StoredEntry)

/-- The overwrite `_load_config` performs on one known agent:
`enabled = config.get("enabled", True)`, `priority = config.get("priority", 0)`. -/
def updC (e : StoredEntry) (c : AgentConfig) : AgentConfig :=
  { c with enabled := e.enabled.getD true, priority := e.priority.getD 0 }

/-- Applying one stored entry inside `_load_config` (lines 91-94): if the
id is known, overwrite its `enabled` and `priority`; unknown ids change
nothing. -/
def applyEntry (agents : AgentsMap) (id : String) (e : StoredEntry) : AgentsMap :=
  agents.map (fun kc => if kc.1 = id then (kc.1, updC e kc.2) else kc)

/-- `_load_config` (lines 85-96): fold the stored entries, in file order,
over the current registry state. -/
def loadConfig (stored : StoredConfig) (agents : AgentsMap) : AgentsMap :=
  match stored with
  | [] => agents
  | (id, e) :: rest => loadConfig rest (applyEntry agents id e)

/-- `_save_config` (lines 98-111): serialize every agent's `enabled` and
`priority` to the configuration document. -/
def saveConfig (agents : AgentsMap) : StoredConfig :=
  agents.map (fun kc => (kc.1, { enabled := some kc.2.enabled, priority := some kc.2.priority }))

/-- `AgentSelector.__init__` (lines 22-83): the registry starts from the
built-in defaults; when a configuration file exists its contents are
loaded over them. -/
def freshSelector (stored : Option StoredConfig) : AgentsMap :=
  match stored with
  | none => defaultAgents
  | some st => loadConfig st defaultAgents

/-- `toggle_agent` (lines 139-158): returns the `bool` result together
with the new registry state.  The privileged `project_advisor` id is
refused (returns `False`, state unchanged); unknown ids return `False`. -/
def toggleAgent (agents : AgentsMap) (id : String) : Bool × AgentsMap :=
  if id ∈ alistKeys agents then
    if id = "project_advisor" then (false, agents)
    else
      (true, agents.map (fun kc =>
        if kc.1 = id then (kc.1, { kc.2 with enabled := !kc.2.enabled }) else kc))
  else (false, agents)

/-- `set_agent_priority` (lines 160-175). -/
def setAgentPriority (agents : AgentsMap) (id : String) (priority : Int) :
    Bool × AgentsMap :=
  if id ∈ alistKeys agents then
    (true, agents.map (fun kc =>
      if kc.1 = id then (kc.1, { kc.2 with priority := priority }) else kc))
  else (false, agents)

/-- `get_enabled_agents` (lines 177-183). -/
def getEnabledAgents (agents : AgentsMap) : AgentsMap :=
  agents.filter (fun kc => kc.2.enabled)

/-! ## Structured-call layer: default records (src/utils/llm.py) -/

/-- The Python type annotations that `create_default_response` inspects
(`field.annotation`).  `dictTy`/`listTy` carry `__origin__` `dict`/`list`
and `__args__`; `litTy` (a `Literal[...]`) carries `__args__` whose
elements are the literal string values; a nested model class carries
neither. -/
inductive FieldTy where
  | strTy
  | floatTy
  | intTy
  | boolTy
  | listTy (elem : FieldTy)
  | dictTy (key value : FieldTy)
  | litTy (vals : List String)
  | modelTy (clsName : String)
deriving Repr, DecidableEq

/-- Python runtime values as far as the default-record machinery is
concerned.  `typeObj t` is a class object (e.g. the element class taken
from `__args__[0]` of a `list[...]` annotated field); `noneVal` is
Python `None`. -/
inductive PyVal where
  | s (v : String)
  | f (v : ℚ)
  | i (v : Int)
  | b (v : Bool)
  | list (vs : List PyVal)
  | dict
  | typeObj (t : FieldTy)
  | noneVal
deriving Repr

/-- The per-field default of `create_default_response` (src/utils/llm.py
lines 169-184), following the source's branch order exactly:
`== str`, `== float`, `== int`, `__origin__ == dict`, then the fallback
that takes `__args__[0]` when present and `None` otherwise.  A
`list[...]` field therefore receives its *element class object* (for
`list[str]`, the class `str`), not a list. -/
def defaultFor (t : FieldTy) : PyVal :=
  match t with
  | .strTy => .s "Error in analysis, using default"
  | .floatTy => .f 0
  | .intTy => .i 0
  | .dictTy _ _ => .dict
  | .listTy elem => .typeObj elem
  | .litTy vals =>
      match vals with
      | v :: _ => .s v
      | [] => .noneVal
  | .boolTy => .noneVal
  | .modelTy _ => .noneVal

/-- A pydantic model class, as a list of required field names and their
annotations. -/
abbrev ModelFields : Type := List (String × FieldTy)

/-- The `default_values` dict built by `create_default_response`. -/
def createDefaultResponse (fields : ModelFields) : List (String × PyVal) :=
  fields.map (fun nt => (nt.1, defaultFor nt.2))

/-- Pydantic field validation (the checks `model_class(**default_values)`
performs per field): a value is accepted when it structurally matches the
annotation.  Ints coerce to float fields; a class object (`typeObj`)
matches no annotation. -/
def validates : FieldTy → PyVal → Bool
  | .strTy, .s _ => true
  | .litTy vals, .s v => vals.contains v
  | .floatTy, .f _ => true
  | .floatTy, .i _ => true
  | .intTy, .i _ => true
  | .boolTy, .b _ => true
  | .dictTy _ _, .dict => true
  | .listTy elem, .list vs => vs.attach.all (fun v => validates elem v.1)
  | _, _ => false

/-- Pydantic model construction `model_class(**values)`: every declared
field must be present and validate, otherwise a `ValidationError` is
raised. -/
def constructModel (fields : ModelFields) (values : List (String × PyVal)) :
    Except PyErr Unit :=
  if fields.all (fun nt =>
      match alistGet values nt.1 with
      | some v => validates nt.2 v
      | none => false)
  then .ok () else .error .validationError

/-- The declared fields of `SamAltmanSignal` as pydantic sees them. -/
def samAltmanFields : ModelFields :=
  [("opportunity_score", .floatTy),
   ("market_potential", .floatTy),
   ("technical_feasibility", .floatTy),
   ("reasoning", .strTy),
   ("key_insights", .listTy .strTy),
   ("potential_risks", .listTy .strTy)]

/-- The field-fill defaults of `generate_altman_output`
(src/agents/sam_altman.py lines 191-203): each declared field missing
from the parsed response is filled with these values. -/
def altmanFillDefaults : List (String × PyVal) :=
  [("opportunity_score", .f (1/2)),
   ("market_potential", .f (1/2)),
   ("technical_feasibility", .f (1/2)),
   ("reasoning", .s "Unable to generate detailed reasoning."),
   ("key_insights", .list [.s "Default insight"]),
   ("potential_risks", .list [.s "Default risk"])]

/-- The field-presence pass of `generate_altman_output`: any declared
field absent from `parsed` is added with its fill default. -/
def altmanFillMissing (parsed : List (String × PyVal)) : List (String × PyVal) :=
  parsed ++ (altmanFillDefaults.filter (fun nv => (alistGet parsed nv.1).isNone))

/-! ## JSON extraction (src/utils/ollama_utils.py)

`json.loads` is modelled by a recursive-descent parser for the JSON
subset actually exercised here (objects, arrays, strings, integers,
booleans, null, whitespace; no fractional/exponent numbers and no
unicode escapes).  Like `json.loads`, it rejects trailing garbage. -/

/-- Parsed JSON values. -/
inductive Json where
  | null
  | bool (b : Bool)
  | num (n : Int)
  | str (s : String)
  | arr (xs : List Json)
  | obj (fields : List (String × Json))
deriving Repr

/-- JSON whitespace. -/
def isWsChar (c : Char) : Bool :=
  c = ' ' || c = '\n' || c = '\t' || c = '\r'

/-- Skip leading whitespace. -/
def skipWs (cs : List Char) : List Char :=
  cs.dropWhile isWsChar

/-- ASCII digit test. -/
def isDigitCh (c : Char) : Bool :=
  '0' ≤ c && c ≤ '9'

/-- Digits to a natural number (most significant first). -/
def digitsToNat : List Char → ℕ → ℕ
  | [], acc => acc
  | c :: cs, acc => digitsToNat cs (acc * 10 + (c.toNat - '0'.toNat))

/-- One escaped character of a JSON string body. -/
def unescapeChar (c : Char) : Char :=
  if c = 'n' then '\n'
  else if c = 't' then '\t'
  else if c = 'r' then '\r'
  else c

/-- Parse a JSON string body after the opening quote; returns the content
and the characters after the closing quote. -/
def parseStrChars : List Char → Option (List Char × List Char)
  | [] => none
  | '"' :: rest => some ([], rest)
  | '\\' :: e :: rest =>
      match parseStrChars rest with
      | some (s, r) => some (unescapeChar e :: s, r)
      | none => none
  | c :: rest =>
      match parseStrChars rest with
      | some (s, r) => some (c :: s, r)
      | none => none

/-- Parse an integer JSON number. -/
def parseNum (cs : List Char) : Option (Json × List Char) :=
  match cs with
  | '-' :: rest =>
      let ds := rest.takeWhile isDigitCh
      if ds = [] then none
      else some (.num (-(Int.ofNat (digitsToNat ds 0))), rest.drop ds.length)
  | _ =>
      let ds := cs.takeWhile isDigitCh
      if ds = [] then none
      else some (.num (Int.ofNat (digitsToNat ds 0)), cs.drop ds.length)

mutual

/-- Parse one JSON value (fuel-bounded recursive descent). -/
def parseJsonVal : ℕ → List Char → Option (Json × List Char)
  | 0, _ => none
  | fuel + 1, cs =>
      let cs := skipWs cs
      match cs with
      | [] => none
      | c :: rest =>
          if c = 'n' then
            if leadsWith "null".data cs then some (.null, cs.drop 4) else none
          else if c = 't' then
            if leadsWith "true".data cs then some (.bool true, cs.drop 4) else none
          else if c = 'f' then
            if leadsWith "false".data cs then some (.bool false, cs.drop 5) else none
          else if c = '"' then
            match parseStrChars rest with
            | some (s, r) => some (.str (String.mk s), r)
            | none => none
          else if c = '[' then
            match skipWs rest with
            | ']' :: r => some (.arr [], r)
            | r => match parseElems fuel r with
                   | some (vs, r2) => some (.arr vs, r2)
                   | none => none
          else if c = '{' then
            match skipWs rest with
            | '}' :: r => some (.obj [], r)
            | r => match parseMembers fuel r with
                   | some (ms, r2) => some (.obj ms, r2)
                   | none => none
          else if c = '-' || isDigitCh c then parseNum cs
          else none

/-- Parse the elements of a non-empty JSON array, consuming the closing
bracket. -/
def parseElems : ℕ → List Char → Option (List Json × List Char)
  | 0, _ => none
  | fuel + 1, cs =>
      match parseJsonVal fuel cs with
      | none => none
      | some (v, rest) =>
          match skipWs rest with
          | ',' :: more =>
              match parseElems fuel more with
              | some (vs, r) => some (v :: vs, r)
              | none => none
          | ']' :: more => some ([v], more)
          | _ => none

/-- Parse the members of a non-empty JSON object, consuming the closing
brace. -/
def parseMembers : ℕ → List Char → Option (List (String × Json) × List Char)
  | 0, _ => none
  | fuel + 1, cs =>
      match skipWs cs with
      | '"' :: rest =>
          match parseStrChars rest with
          | none => none
          | some (k, r1) =>
              match skipWs r1 with
              | ':' :: r2 =>
                  match parseJsonVal fuel r2 with
                  | none => none
                  | some (v, r3) =>
                      match skipWs r3 with
                      | ',' :: r4 =>
                          match parseMembers fuel r4 with
                          | some (ms, r) => some ((String.mk k, v) :: ms, r)
                          | none => none
                      | '}' :: r4 => some ([(String.mk k, v)], r4)
                      | _ => none
              | _ => none
      | _ => none

end

/-- `json.loads` on a character list: parse one value and reject trailing
non-whitespace; `none` models a raised `JSONDecodeError`. -/
def jsonLoadsChars (cs : List Char) : Option Json :=
  match parseJsonVal (cs.length + 1) cs with
  | some (v, rest) => if skipWs rest = [] then some v else none
  | none => none

/-- `json.loads` on a string. -/
def jsonLoads (s : String) : Option Json :=
  jsonLoadsChars s.data

/-- Python `str.find` for a single character: first index or `-1`. -/
def pyFind (cs : List Char) (c : Char) : Int :=
  match cs.findIdx? (fun x => x = c) with
  | some i => Int.ofNat i
  | none => -1

/-- Python `str.rfind` for a single character: last index or `-1`. -/
def pyRfind (cs : List Char) (c : Char) : Int :=
  match cs.reverse.findIdx? (fun x => x = c) with
  | some i => Int.ofNat (cs.length - 1 - i)
  | none => -1

/-- `extract_json_from_response` (src/utils/ollama_utils.py lines
93-115): take the substring from the first brace to one past the last
closing brace and parse it; when no such pair exists, the same with
square brackets; otherwise `None`.  A `json.loads` failure raises inside
the try block, is caught, and yields `None` — in particular the bracket
branch is not attempted after a failed brace parse. -/
def extractJsonFromResponse (content : String) : Option Json :=
  let cs := content.data
  let js := pyFind cs '{'
  let je := pyRfind cs '}' + 1
  if js ≥ 0 ∧ je > js then
    jsonLoadsChars ((cs.take je.toNat).drop js.toNat)
  else
    let js2 := pyFind cs '['
    let je2 := pyRfind cs ']' + 1
    if js2 ≥ 0 ∧ je2 > js2 then
      jsonLoadsChars ((cs.take je2.toNat).drop js2.toNat)
    else none

/-! ## Project advisor recommendation path (src/agents/project_advisor.py) -/

/-- The required top-level fields checked by `_generate_recommendation`
(lines 177-181). -/
def advisorRequiredFields : List String :=
  ["pursue_project", "confidence_score", "key_factors",
   "resource_requirements", "timeline", "next_steps",
   "alternative_suggestions"]

/-- `response.split("\x60\x60\x60")[1]`: the text between the first and second
fence, or between the first fence and the end; `none` when the response
contains no fence, in which case the index raises `IndexError`. -/
def splitFence (s : String) : Option String :=
  match afterFirst "```".data s.data with
  | some rest => some (String.mk (upToNext "```".data rest))
  | none => none

/-- `json.dumps` applied to a Python `str`: the quoted, escaped JSON
representation (a string again). -/
def escapeJsonChar (c : Char) : List Char :=
  if c = '"' then ['\\', '"']
  else if c = '\\' then ['\\', '\\']
  else if c = '\n' then ['\\', 'n']
  else if c = '\t' then ['\\', 't']
  else if c = '\r' then ['\\', 'r']
  else [c]

/-- `json.dumps(response)` for a string `response`. -/
def jsonDumpsStr (s : String) : String :=
  String.mk ('"' :: ((s.data.map escapeJsonChar).flatten ++ ['"']))

/-- The hard-coded fallback `ProjectRecommendation`
(src/agents/project_advisor.py lines 199-234). -/
def advisorFallbackRec : ProjectRecommendation :=
  { pursue_project := false
    confidence_score := 0
    key_factors :=
      ["Error occurred during analysis",
       "Unable to parse recommendation",
       "Please check the input data and try again"]
    resource_requirements :=
      ["Technical review needed",
       "Data validation required",
       "System check necessary"]
    timeline :=
      { phase1 := "Analysis phase pending"
        phase2 := "Development phase pending"
        phase3 := "Testing phase pending"
        phase4 := "Launch phase pending"
        total_duration := "To be determined"
        key_milestones :=
          ["Initial analysis completion",
           "Technical validation",
           "Resource assessment"] }
    next_steps :=
      ["Review input data for completeness",
       "Validate agent insights",
       "Retry analysis with verified data"]
    alternative_suggestions :=
      ["Consider simplifying the product idea",
       "Break down into smaller components",
       "Gather more specific requirements"] }

/-- The try block of `_generate_recommendation` (lines 171-193), given
the string returned by `call_llm`:
* no fence → `split(...)[1]` raises `IndexError`;
* otherwise `recommendation_data = json.dumps(response)` is a *string*,
  so the `field in recommendation_data` membership tests are substring
  tests; if one fails, `raise ValueError(...)`; if all succeed,
  `recommendation_data["timeline"]` indexes a string with a string and
  raises `TypeError`.  The try block can never reach the
  `ProjectRecommendation(**recommendation_data)` construction. -/
def advisorTryBody (response : String) : Except PyErr ProjectRecommendation :=
  match splitFence response with
  | none => .error .indexError
  | some seg =>
      let dumped := jsonDumpsStr seg
      if advisorRequiredFields.all (fun f => occursIn f.data dumped.data) then
        .error .typeError
      else .error .valueError

/-- `_generate_recommendation` (lines 169-234) from the `call_llm` result
onward: the bare `except Exception` turns every failure of the try block
into the hard-coded fallback recommendation. -/
def generateAdvisorRecommendation (response : String) : ProjectRecommendation :=
  match advisorTryBody response with
  | .ok r => r
  | .error _ => advisorFallbackRec

/-! ## Specification-side definitions

These formalise the spec's wording (not the source); they are compared
against the source-derived definitions above. -/

/-- The thirteen known score buckets. -/
inductive ScoreKey where
  | opportunity_score
  | market_potential
  | technical_feasibility
  | scientific_breakthrough_potential
  | technical_advancement
  | research_feasibility
  | startup_potential
  | ai_infrastructure
  | platform_potential
  | social_impact
  | autonomous_systems_score
  | educational_impact
  | innovation_potential
deriving Repr, DecidableEq

/-- Project a `Scores` record at a bucket key. -/
def scoreVal (s : Scores) : ScoreKey → ℚ
  | .opportunity_score => s.opportunity_score
  | .market_potential => s.market_potential
  | .technical_feasibility => s.technical_feasibility
  | .scientific_breakthrough_potential => s.scientific_breakthrough_potential
  | .technical_advancement => s.technical_advancement
  | .research_feasibility => s.research_feasibility
  | .startup_potential => s.startup_potential
  | .ai_infrastructure => s.ai_infrastructure
  | .platform_potential => s.platform_potential
  | .social_impact => s.social_impact
  | .autonomous_systems_score => s.autonomous_systems_score
  | .educational_impact => s.educational_impact
  | .innovation_potential => s.innovation_potential

/-- The contribution of one optionally-present persona to a bucket, as a
list (empty when absent). -/
def optList {α : Type} (x : Option α) (f : α → ℚ) : List ℚ :=
  match x with
  | some a => [f a]
  | none => []

/-- Spec side: the list of score contributions routed into a bucket by
the static persona→bucket mapping, for the present personas. -/
def contributions (m : InsightsMap) : ScoreKey → List ℚ
  | .opportunity_score =>
      optList (getAltman m) (·.opportunity_score) ++ optList (getMusk m) (·.opportunity_score)
  | .market_potential =>
      optList (getAltman m) (·.market_potential) ++ optList (getMusk m) (·.market_potential)
        ++ optList (getGross m) (·.market_fit) ++ optList (getDelangue m) (·.practical_application)
  | .technical_feasibility =>
      optList (getAltman m) (·.technical_feasibility) ++ optList (getMusk m) (·.technical_feasibility)
        ++ optList (getMostaque m) (·.open_source_potential) ++ optList (getDelangue m) (·.technical_feasibility)
  | .scientific_breakthrough_potential =>
      optList (getHassabis m) (·.scientific_breakthrough_potential)
  | .technical_advancement =>
      optList (getHassabis m) (·.technical_advancement)
  | .research_feasibility =>
      optList (getHassabis m) (·.research_feasibility)
  | .startup_potential =>
      optList (getGross m) (·.startup_potential)
  | .ai_infrastructure =>
      optList (getDangelo m) (·.ai_infrastructure) ++ optList (getGross m) (·.ai_infrastructure)
        ++ optList (getMostaque m) (·.infrastructure_score) ++ optList (getDelangue m) (·.ai_innovation_score)
  | .platform_potential =>
      optList (getDangelo m) (·.platform_potential)
  | .social_impact =>
      optList (getDangelo m) (·.social_impact) ++ optList (getMostaque m) (·.community_impact)
  | .autonomous_systems_score =>
      optList (getThrun m) (·.autonomous_systems_score)
  | .educational_impact =>
      optList (getThrun m) (·.educational_impact)
  | .innovation_potential =>
      optList (getThrun m) (·.innovation_potential)

/-- The fixed headline subset of buckets whose unweighted mean is the
overall score. -/
def keyMetrics : List ScoreKey :=
  [.opportunity_score, .market_potential, .technical_feasibility,
   .scientific_breakthrough_potential, .ai_infrastructure, .innovation_potential]

/-- Spec side: close a pending bracket span; `d` is the current nesting
depth of `o`-brackets, `acc` the characters read so far (reversed). -/
def closeSpan (o c : Char) : ℕ → List Char → List Char → Option (List Char)
  | _, _, [] => none
  | d, acc, x :: rest =>
      if x = c then
        if d = 1 then some ((x :: acc).reverse)
        else closeSpan o c (d - 1) (x :: acc) rest
      else if x = o then closeSpan o c (d + 1) (x :: acc) rest
      else closeSpan o c d (x :: acc) rest

/-- Spec side: the first balanced brace or bracket span of a string
("scan the raw text for the first balanced span"). -/
def firstBalancedSpan (s : String) : Option String :=
  go s.data
where
  go : List Char → Option String
    | [] => none
    | c :: cs =>
        if c = '{' then (closeSpan '{' '}' 1 [c] cs).map String.mk
        else if c = '[' then (closeSpan '[' ']' 1 [c] cs).map String.mk
        else go cs

/-- Spec side (amended C8): the substring from the first occurrence of
`a` to one past the last occurrence of `b`, when the former does not come
after the latter. -/
def firstLastSlice (cs : List Char) (a b : Char) : Option (List Char) :=
  match cs.findIdx? (fun x => x = a), cs.reverse.findIdx? (fun x => x = b) with
  | some i, some j =>
      if i ≤ cs.length - 1 - j then some ((cs.take (cs.length - 1 - j + 1)).drop i)
      else none
  | _, _ => none

/-- Spec side (amended C8): first brace to one past the last closing
brace. -/
def braceSlice (cs : List Char) : Option (List Char) :=
  firstLastSlice cs '\x7b' '\x7d'

/-- Spec side (amended C8): the same with square brackets. -/
def bracketSlice (cs : List Char) : Option (List Char) :=
  firstLastSlice cs '[' ']' 

/-- The last stored entry for a given id in a configuration document
(the one whose effect survives the `_load_config` fold). -/
def lastEntry : StoredConfig → String → Option StoredEntry
  | [], _ => none
  | ide :: rest, k =>
      match lastEntry rest k with
      | some e => some e
      | none => if ide.1 = k then some ide.2 else none

/-! ## Helper lemmas -/

theorem alistGet_eq_none {β : Type} {l : List (String × β)} {k : String}
    (h : k ∉ alistKeys l) : alistGet l k = none := by
  induction l with
  | nil => rfl
  | cons hd tl ih =>
      simp only [alistKeys, List.map_cons, List.mem_cons, not_or] at h
      simp only [alistGet]
      rw [if_neg (fun he : hd.1 = k => h.1 he.symm)]
      exact ih h.2

theorem alistGet_perm {β : Type} {l l' : List (String × β)} (hp : l.Perm l') :
    (alistKeys l).Nodup → ∀ k, alistGet l k = alistGet l' k := by
  induction hp with
  | nil => intro _ _; rfl
  | cons x tailperm ih =>
      intro hn k
      simp only [alistKeys, List.map_cons] at hn
      simp only [alistGet]
      by_cases hx : x.1 = k
      · simp [hx]
      · simp [hx, ih hn.of_cons k]
  | swap x y l =>
      intro hn k
      have hne : y.1 ≠ x.1 := by
        simp only [alistKeys, List.map_cons, List.nodup_cons] at hn
        exact fun he => hn.1 (by simp [he])
      by_cases hy : y.1 = k <;> by_cases hx : x.1 = k
      · exact absurd (hy.trans hx.symm) hne
      · simp [alistGet, hy, hx]
      · simp [alistGet, hy, hx]
      · simp [alistGet, hy, hx]
  | trans h1 h2 ih1 ih2 =>
      intro hn k
      rw [ih1 hn k, ih2 (((h1.map Prod.fst).nodup_iff).mp hn) k]

theorem slotVal_congr {l l' : InsightsMap} (h : ∀ k, alistGet l k = alistGet l' k)
    (k : String) : slotVal l k = slotVal l' k := by
  simp only [slotVal, h k]

theorem aggregate_congr {l l' : InsightsMap} (h : ∀ k, slotVal l k = slotVal l' k) :
    avgScores l = avgScores l' ∧ keyInsights l = keyInsights l'
      ∧ potentialRisks l = potentialRisks l' ∧ getAdvisor l = getAdvisor l' := by
  refine ⟨?_, ?_, ?_, ?_⟩ <;>
    simp [avgScores, sumScores, countScores, keyInsights, potentialRisks, getAdvisor,
      getAltman, getHassabis, getMusk, getDangelo, getGross, getThrun, getMostaque,
      getDelangue, h]

theorem slotVal_filter {l : InsightsMap} (hn : (alistKeys l).Nodup) (k : String) :
    slotVal (l.filter (fun e => e.2.isSome)) k = slotVal l k := by
  induction l with
  | nil => rfl
  | cons hd tl ih =>
      simp only [alistKeys, List.map_cons, List.nodup_cons] at hn
      by_cases hv : hd.2.isSome
      · rw [show List.filter (fun e => e.2.isSome) (hd :: tl)
              = hd :: List.filter (fun e => e.2.isSome) tl by
            simp [List.filter_cons, hv]]
        by_cases hk : hd.1 = k
        · simp [slotVal, alistGet, hk]
        · simp only [slotVal, alistGet, if_neg hk]
          exact ih hn.2
      · rw [show List.filter (fun e => e.2.isSome) (hd :: tl)
              = List.filter (fun e => e.2.isSome) tl by
            simp [List.filter_cons, hv]]
        rw [ih hn.2]
        by_cases hk : hd.1 = k
        · have hnone : hd.2 = none := by
            cases h2 : hd.2
            · rfl
            · rw [h2] at hv; simp at hv
          have htl : alistGet tl k = none :=
            alistGet_eq_none (by rw [← hk]; exact hn.1)
          simp [slotVal, alistGet, hk, hnone, htl]
        · simp [slotVal, alistGet, hk]

theorem avgContrib1 {α : Type} (x : Option α) (f : α → ℚ) :
    avgField (optScore x f) (optCount x) =
      (if optList x f = [] then 0
       else (optList x f).sum / ((optList x f).length : ℚ)) := by
  cases x <;> simp [avgField, optScore, optCount, optList]

theorem avgContrib2 {α β : Type} (x : Option α) (y : Option β)
    (f : α → ℚ) (g : β → ℚ) :
    avgField (optScore x f + optScore y g) (optCount x + optCount y) =
      (if optList x f ++ optList y g = [] then 0
       else (optList x f ++ optList y g).sum
         / (((optList x f ++ optList y g).length : ℕ) : ℚ)) := by
  cases x <;> cases y <;>
    simp [avgField, optScore, optCount, optList]

theorem avgContrib4 {α β γ δ : Type}
    (x : Option α) (y : Option β) (z : Option γ) (w : Option δ)
    (f : α → ℚ) (g : β → ℚ) (f2 : γ → ℚ) (g2 : δ → ℚ) :
    avgField (optScore x f + optScore y g + optScore z f2 + optScore w g2)
        (optCount x + optCount y + optCount z + optCount w) =
      (if optList x f ++ optList y g ++ optList z f2 ++ optList w g2 = [] then 0
       else (optList x f ++ optList y g ++ optList z f2 ++ optList w g2).sum
         / (((optList x f ++ optList y g ++ optList z f2 ++ optList w g2).length : ℕ) : ℚ)) := by
  cases x <;> cases y <;> cases z <;> cases w <;>
    simp [avgField, optScore, optCount, optList] <;> ring

theorem alistGet_applyEntry (agents : AgentsMap) (id : String) (e : StoredEntry)
    (k : String) :
    alistGet (applyEntry agents id e) k =
      if k = id then (alistGet agents k).map (updC e) else alistGet agents k := by
  induction agents with
  | nil => simp [applyEntry, alistGet]
  | cons hd tl ih =>
      simp only [applyEntry, List.map_cons] at *
      by_cases h1 : hd.1 = id
      · by_cases h2 : k = id
        · simp [alistGet, h1, h2]
        · have h3 : ¬ hd.1 = k := fun he => h2 (he.symm.trans h1)
          have h5 : ¬ id = k := fun he => h2 he.symm
          simp [alistGet, h1, h2, h3, h5, ih]
      · by_cases h2 : hd.1 = k
        · have h4 : ¬ k = id := fun hk => h1 (h2.trans hk)
          simp [alistGet, h1, h2, h4]
        · simp [alistGet, h1, h2, ih]

theorem updC_updC (e e' : StoredEntry) (c : AgentConfig) :
    updC e' (updC e c) = updC e' c := rfl

theorem lastEntry_eq_none {stored : StoredConfig} {k : String}
    (h : k ∉ alistKeys stored) : lastEntry stored k = none := by
  induction stored with
  | nil => rfl
  | cons hd tl ih =>
      simp only [alistKeys, List.map_cons, List.mem_cons, not_or] at h
      simp only [lastEntry, ih h.2]
      rw [if_neg (fun he : hd.1 = k => h.1 he.symm)]

theorem loadConfig_get (stored : StoredConfig) (agents : AgentsMap) (k : String) :
    alistGet (loadConfig stored agents) k =
      (match lastEntry stored k with
       | some e => (alistGet agents k).map (updC e)
       | none => alistGet agents k) := by
  induction stored generalizing agents with
  | nil => rfl
  | cons hd tl ih =>
      rcases hd with ⟨id, e⟩
      simp only [loadConfig, lastEntry]
      rw [ih (applyEntry agents id e)]
      cases hlast : lastEntry tl k with
      | some e2 =>
          simp only [hlast, alistGet_applyEntry]
          by_cases hk : k = id
          · simp only [hk, if_pos rfl, Option.map_map]
            cases alistGet agents id <;> simp [Function.comp, updC_updC]
          · simp [hk]
      | none =>
          simp only [hlast, alistGet_applyEntry]
          by_cases hk : k = id
          · simp [hk]
          · have h5 : ¬ id = k := fun he => hk he.symm
            simp [hk, h5]

theorem alistKeys_saveConfig (l : AgentsMap) :
    alistKeys (saveConfig l) = alistKeys l := by
  simp [alistKeys, saveConfig]

theorem alistGet_isSome_of_mem {β : Type} {l : List (String × β)} {k : String}
    (h : k ∈ alistKeys l) : ∃ c, alistGet l k = some c := by
  induction l with
  | nil => simp [alistKeys] at h
  | cons hd tl ih =>
      by_cases hk : hd.1 = k
      · exact ⟨hd.2, by simp [alistGet, hk]⟩
      · simp only [alistKeys, List.map_cons, List.mem_cons] at h
        rcases h with h | h
        · exact absurd h.symm hk
        · obtain ⟨c, hc⟩ := ih h
          exact ⟨c, by simp [alistGet, hk, hc]⟩

theorem lastEntry_saveConfig {l : AgentsMap} {id : String} {p : Int}
    (hmem : id ∈ alistKeys l)
    (hall : ∀ kc ∈ l, kc.1 = id → kc.2.priority = p) :
    ∃ e, lastEntry (saveConfig l) id = some e ∧ e.priority = some p := by
  induction l with
  | nil => simp [alistKeys] at hmem
  | cons hd tl ih =>
      by_cases htl : id ∈ alistKeys tl
      · obtain ⟨e, he, hp⟩ := ih htl (fun kc hkc => hall kc (List.mem_cons_of_mem _ hkc))
        exact ⟨e, by simp [saveConfig, lastEntry] at he ⊢; simp [he], hp⟩
      · have hhd : hd.1 = id := by
          simp only [alistKeys, List.map_cons, List.mem_cons] at hmem
          rcases hmem with h | h
          · exact h.symm
          · exact absurd h htl
        have hnone : lastEntry (saveConfig tl) id = none :=
          lastEntry_eq_none (by rwa [alistKeys_saveConfig])
        refine ⟨{ enabled := some hd.2.enabled, priority := some hd.2.priority }, ?_, ?_⟩
        · simp [saveConfig, lastEntry] at hnone ⊢
          simp [hnone, hhd]
        · simp [hall hd (List.mem_cons_self _ _) hhd]

theorem setPriority_fixes {st : AgentsMap} {id : String} {p : Int}
    (hmem : id ∈ alistKeys st) :
    (setAgentPriority st id p).2
      = st.map (fun kc => if kc.1 = id then (kc.1, { kc.2 with priority := p }) else kc)
    ∧ ∀ kc ∈ (setAgentPriority st id p).2, kc.1 = id → kc.2.priority = p := by
  constructor
  · simp [setAgentPriority, hmem]
  · intro kc hkc hid
    simp only [setAgentPriority, if_pos hmem] at hkc
    simp only [List.mem_map] at hkc
    obtain ⟨kc', hkc', heq⟩ := hkc
    by_cases h : kc'.1 = id
    · rw [← heq]
      simp [h]
    · rw [← heq] at hid
      simp only [if_neg h] at hid
      exact absurd hid h

theorem alistGet_map_keep_enabled (agents : AgentsMap) (g : AgentConfig → AgentConfig)
    (hg : ∀ c, (g c).enabled = c.enabled) (id k : String) :
    (alistGet (agents.map (fun kc => if kc.1 = id then (kc.1, g kc.2) else kc)) k).map
        (fun c => c.enabled)
      = (alistGet agents k).map (fun c => c.enabled) := by
  induction agents with
  | nil => rfl
  | cons hd tl ih =>
      simp only [List.map_cons, alistGet]
      by_cases h1 : hd.1 = id
      · rw [if_pos h1]
        by_cases h2 : hd.1 = k
        · rw [if_pos (show ((hd.1, g hd.2) : String × AgentConfig).1 = k from h2), if_pos h2]
          simp [hg]
        · rw [if_neg (show ¬ ((hd.1, g hd.2) : String × AgentConfig).1 = k from h2),
              if_neg h2]
          exact ih
      · rw [if_neg h1]
        by_cases h2 : hd.1 = k
        · rw [if_pos h2, if_pos h2]
        · rw [if_neg h2, if_neg h2]
          exact ih

theorem alistGet_map_upd_ne (agents : AgentsMap) (g : AgentConfig → AgentConfig)
    (id k : String) (h : id ≠ k) :
    alistGet (agents.map (fun kc => if kc.1 = id then (kc.1, g kc.2) else kc)) k
      = alistGet agents k := by
  induction agents with
  | nil => rfl
  | cons hd tl ih =>
      simp only [List.map_cons, alistGet]
      by_cases h1 : hd.1 = id
      · have h3 : ¬ hd.1 = k := fun he => h (h1.symm.trans he)
        rw [if_pos h1,
            if_neg (show ¬ ((hd.1, g hd.2) : String × AgentConfig).1 = k from h3),
            if_neg h3]
        exact ih
      · rw [if_neg h1]
        by_cases h2 : hd.1 = k
        · rw [if_pos h2, if_pos h2]
        · rw [if_neg h2, if_neg h2]
          exact ih

theorem runAgents_keys (names : List String) (f : String → AgentOutcome) :
    alistKeys (runAgents names f) = names := by
  induction names with
  | nil => rfl
  | cons hd tl ih => simpa [alistKeys, runAgents] using ih

theorem alistGet_runAgents {names : List String} (hn : names.Nodup)
    (f : String → AgentOutcome) {n : String} (h : n ∈ names) :
    alistGet (runAgents names f) n = some (f n).toSlot := by
  induction names with
  | nil => simp at h
  | cons hd tl ih =>
      rcases List.mem_cons.mp h with he | htl
      · simp [runAgents, alistGet, he.symm]
      · have hne : hd ≠ n := fun heq => (List.nodup_cons.mp hn).1 (heq ▸ htl)
        simp only [runAgents, List.map_cons, alistGet, if_neg hne]
        exact ih (List.nodup_cons.mp hn).2 htl

theorem enabledAgentNames_nodup (sel : Option (List String)) :
    (enabledAgentNames sel).Nodup := by
  cases sel with
  | none => decide
  | some s =>
      exact List.Nodup.filter _ (by decide : allAgentNames.Nodup)

theorem extract_branch_eq (cs : List Char) (a b : Char) :
    (if pyFind cs a ≥ 0 ∧ pyRfind cs b + 1 > pyFind cs a then
       jsonLoadsChars ((cs.take (pyRfind cs b + 1).toNat).drop (pyFind cs a).toNat)
     else none)
    = (match firstLastSlice cs a b with
       | some t => jsonLoadsChars t
       | none => none) := by
  unfold pyFind pyRfind firstLastSlice
  cases hf : cs.findIdx? (fun x => x = a) with
  | none =>
      cases hr : cs.reverse.findIdx? (fun x => x = b) <;>
        · dsimp only
          rw [if_neg (by norm_num)]
  | some i =>
      cases hr : cs.reverse.findIdx? (fun x => x = b) with
      | none =>
          dsimp only
          simp only [Int.ofNat_eq_coe]
          rw [if_neg (by omega)]
      | some j =>
          dsimp only
          simp only [Int.ofNat_eq_coe]
          by_cases hij : i ≤ cs.length - 1 - j
          · rw [if_pos (by constructor <;> omega), if_pos hij]
            have h1 : ((i : ℤ)).toNat = i := by omega
            have h2 : (((cs.length - 1 - j : ℕ) : ℤ) + 1).toNat
                = cs.length - 1 - j + 1 := by omega
            rw [h1, h2]
          · rw [if_neg (by omega), if_neg hij]

theorem alistKeys_map_upd (st : AgentsMap) (id : String)
    (g : AgentConfig → AgentConfig) :
    alistKeys (st.map (fun kc => if kc.1 = id then (kc.1, g kc.2) else kc))
      = alistKeys st := by
  induction st with
  | nil => rfl
  | cons hd tl ih =>
      by_cases h : hd.1 = id <;> simp [alistKeys, h] <;>
        simpa [alistKeys] using ih

theorem applyEntry_not_mem {agents : AgentsMap} {id : String} (e : StoredEntry)
    (h : id ∉ alistKeys agents) : applyEntry agents id e = agents := by
  induction agents with
  | nil => rfl
  | cons hd tl ih =>
      simp only [alistKeys, List.map_cons, List.mem_cons, not_or] at h
      simp only [applyEntry, List.map_cons]
      rw [if_neg (fun he : hd.1 = id => h.1 he.symm)]
      have := ih (by simpa [alistKeys] using h.2)
      simpa [applyEntry] using this

theorem loadConfig_disjoint {stored : StoredConfig} {agents : AgentsMap}
    (h : ∀ k ∈ alistKeys stored, k ∉ alistKeys agents) :
    loadConfig stored agents = agents := by
  induction stored with
  | nil => rfl
  | cons hd tl ih =>
      simp only [loadConfig]
      rw [applyEntry_not_mem hd.2 (h hd.1 (by simp [alistKeys]))]
      exact ih (fun k hk => h k (by simp [alistKeys] at hk ⊢; exact Or.inr hk))

theorem lastEntry_mem {stored : StoredConfig} {k : String} {e : StoredEntry}
    (h : lastEntry stored k = some e) : (k, e) ∈ stored := by
  induction stored with
  | nil => exact absurd h (by simp [lastEntry])
  | cons hd tl ih =>
      simp only [lastEntry] at h
      cases htl : lastEntry tl k with
      | some e2 =>
          rw [htl] at h
          exact List.mem_cons_of_mem _ (ih (htl.trans (by injection h with h2; rw [h2])))
      | none =>
          rw [htl] at h
          by_cases hk : hd.1 = k
          · rw [if_pos hk] at h
            injection h with h2
            have : hd = (k, e) := by rw [← hk, ← h2]
            rw [← this]
            exact List.mem_cons_self _ _
          · rw [if_neg hk] at h
            exact absurd h (by simp)

theorem cond_iff_isSome (cs : List Char) (a b : Char) :
    (pyFind cs a ≥ 0 ∧ pyRfind cs b + 1 > pyFind cs a)
      ↔ (firstLastSlice cs a b).isSome = true := by
  unfold pyFind pyRfind firstLastSlice
  cases hf : cs.findIdx? (fun x => x = a) with
  | none =>
      cases hr : cs.reverse.findIdx? (fun x => x = b) <;>
        · dsimp only
          constructor
          · intro hc
            exact absurd hc.1 (by norm_num)
          · intro hc
            simp at hc
  | some i =>
      cases hr : cs.reverse.findIdx? (fun x => x = b) with
      | none =>
          dsimp only
          simp only [Int.ofNat_eq_coe]
          constructor
          · intro hc
            omega
          · intro hc
            simp at hc
      | some j =>
          dsimp only
          simp only [Int.ofNat_eq_coe]
          by_cases hij : i ≤ cs.length - 1 - j
          · rw [if_pos hij]
            constructor
            · intro _; rfl
            · intro _
              constructor <;> omega
          · rw [if_neg hij]
            constructor
            · intro hc
              exact absurd (by omega : i ≤ cs.length - 1 - j) hij
            · intro hc
              simp at hc

theorem slice_val {cs : List Char} {a b : Char} {t : List Char}
    (h : firstLastSlice cs a b = some t) :
    (cs.take (pyRfind cs b + 1).toNat).drop (pyFind cs a).toNat = t := by
  unfold pyFind pyRfind
  unfold firstLastSlice at h
  cases hf : cs.findIdx? (fun x => x = a) with
  | none => rw [hf] at h; exact absurd h (by simp)
  | some i =>
      cases hr : cs.reverse.findIdx? (fun x => x = b) with
      | none => rw [hf, hr] at h; exact absurd h (by simp)
      | some j =>
          rw [hf, hr] at h
          dsimp only at h ⊢
          simp only [Int.ofNat_eq_coe]
          by_cases hij : i ≤ cs.length - 1 - j
          · rw [if_pos hij] at h
            have h2 := Option.some.inj h
            have h1 : ((i : ℤ)).toNat = i := by omega
            have h2b : (((cs.length - 1 - j : ℕ) : ℤ) + 1).toNat
                = cs.length - 1 - j + 1 := by omega
            rw [h1, h2b, h2]
          · rw [if_neg hij] at h
            exact absurd h (by simp)

/-! ## Claim theorems -/

/-- Claim C1 (code-bug evidence): `evaluate_product` is claimed never to
raise, and to return an evaluation with overall score 0 and empty lists
for a run with zero completed personas.  In fact: (1) with the empty
selection, the fallback recommendation call runs and
`response.split("\x60\x60\x60")[1]` raises an uncaught `IndexError` whenever the
LLM response has no fence; (2) with all agents selected and the Project
Advisor returning a recommendation, line 286 reads the nonexistent
`.recommendations` attribute and raises `AttributeError`; (3) only when
the fallback call happens to return a fenced string does the zero-persona
run return the evaluation the spec describes (overall 0, empty lists). -/
theorem c1_evaluate_product_raises_at_failing_input :
    evaluateProduct "Test idea" (some []) (fun _ => .raises)
        (.ok "Here are five recommendations without a code fence")
      = .error .indexError
    ∧ evaluateProduct "Test idea" none
        (fun n => if n = "Project Advisor" then .ok (.advisor advisorFallbackRec)
                  else .raises)
        (.ok "irrelevant")
      = .error .attributeError
    ∧ evaluateProduct "Test idea" (some []) (fun _ => .raises) (.ok "```[]```")
      = .ok { product_idea := "Test idea", overall_score := 0, market_potential := 0,
              technical_feasibility := 0, innovation_potential := 0, key_insights := [],
              potential_risks := [], agent_insights := [],
              recommendations := fallbackRecommendations,
              project_recommendation := none } := by
  refine ⟨rfl, rfl, ?_⟩
  have hcomb : combineInsights "Test idea" (.ok "```[]```") []
      = .ok { product_idea := "Test idea", overall_score := 0, market_potential := 0,
              technical_feasibility := 0, innovation_potential := 0, key_insights := [],
              potential_risks := [], agent_insights := [],
              recommendations := fallbackRecommendations,
              project_recommendation := none } := by
    unfold combineInsights
    rw [show getAdvisor ([] : InsightsMap) = none from rfl,
        show generateRecommendations (.ok "```[]```") = .ok fallbackRecommendations from rfl]
    dsimp only
    norm_num [Except.ok.injEq, ProductEvaluation.mk.injEq, overallScore, avgScores,
      sumScores, countScores, avgField, optScore, optCount, keyInsights, potentialRisks,
      optStrs, getAltman, getHassabis, getMusk, getDangelo, getGross, getThrun,
      getMostaque, getDelangue, slotVal, alistGet]
  show evaluateProduct _ _ _ _ = _
  unfold evaluateProduct
  rw [show runAgents (enabledAgentNames (some [])) (fun _ => .raises) = [] from rfl]
  dsimp only
  rw [hcomb]
  rfl

/-- Claim C2 (code-bug evidence): the claimed neutral default (0.0 for
scores, a single-element placeholder list for list fields, a generic
placeholder string for text) is not what the code produces.
`create_default_response` has no branch for `list[...]` fields, so such a
field receives its element class object (`__args__[0]`), and pydantic
construction then raises a `ValidationError` for every declared signal
record type (all of them have two `list[str]` fields) — the default
record is never produced.  Moreover the field-fill defaults in
`generate_altman_output` use 0.5 for omitted scores, not 0.0, and a
different placeholder string from `create_default_response`. -/
theorem c2_create_default_response_raises :
    constructModel samAltmanFields (createDefaultResponse samAltmanFields)
        = .error .validationError
    ∧ alistGet (createDefaultResponse samAltmanFields) "key_insights"
        = some (.typeObj .strTy)
    ∧ alistGet (altmanFillMissing []) "opportunity_score" = some (.f (1 / 2))
    ∧ alistGet (createDefaultResponse samAltmanFields) "opportunity_score"
        = some (.f 0)
    ∧ alistGet (createDefaultResponse samAltmanFields) "reasoning"
        = some (.s "Error in analysis, using default")
    ∧ alistGet (altmanFillMissing []) "reasoning"
        = some (.s "Unable to generate detailed reasoning.") :=
  ⟨rfl, rfl, rfl, rfl, rfl, rfl⟩

/-- Claim C10: for every string the LLM call returns, the project
advisor's `_generate_recommendation` returns the hard-coded fallback
recommendation (`pursue_project = false`, `confidence_score = 0`): the
extracted text is re-serialized with `json.dumps` into a string before
field validation, so the try block always raises (IndexError without a
fence; otherwise ValueError on the substring field test or TypeError on
`recommendation_data["timeline"]`) and the `except` branch is always
taken. -/
theorem c10_advisor_recommendation_always_fallback :
    ∀ response : String,
      generateAdvisorRecommendation response = advisorFallbackRec
      ∧ (advisorTryBody response).isOk = false
      ∧ advisorFallbackRec.pursue_project = false
      ∧ advisorFallbackRec.confidence_score = 0 := by
  intro response
  have herr : ∃ e, advisorTryBody response = .error e := by
    unfold advisorTryBody
    cases splitFence response with
    | none => exact ⟨.indexError, rfl⟩
    | some seg =>
        dsimp only
        by_cases hall : advisorRequiredFields.all
            (fun f => occursIn f.data (jsonDumpsStr seg).data) = true
        · exact ⟨.typeError, by rw [if_pos hall]⟩
        · exact ⟨.valueError, by rw [if_neg hall]⟩
  obtain ⟨e, he⟩ := herr
  refine ⟨?_, ?_, rfl, rfl⟩
  · unfold generateAdvisorRecommendation
    rw [he]
  · rw [he]
    rfl

/-- Claim C3: for every set of present persona signals, each score
bucket's final value is the arithmetic mean of the contributions routed
into it (a bucket with zero contributions stays 0), and the overall score
is the unweighted mean of exactly the six buckets opportunity, market
potential, technical feasibility, scientific breakthrough potential, ai
infrastructure and innovation potential. -/
theorem c3_bucket_means_and_overall (m : InsightsMap) :
    (∀ k : ScoreKey,
       scoreVal (avgScores m) k =
         (if contributions m k = [] then 0
          else (contributions m k).sum / ((contributions m k).length : ℚ)))
    ∧ overallScore (avgScores m)
        = (keyMetrics.map (scoreVal (avgScores m))).sum / ((keyMetrics.length : ℕ) : ℚ) := by
  constructor
  · intro k
    cases k <;>
      first
        | exact avgContrib1 _ _
        | exact avgContrib2 _ _ _ _
        | exact avgContrib4 _ _ _ _ _ _ _ _
  · simp only [overallScore, keyMetrics, scoreVal, List.map_cons, List.map_nil,
      List.sum_cons, List.sum_nil, List.length_cons, List.length_nil]
    push_cast
    ring

/-- Claim C9: in any successful run, the `innovation_potential` headline
field of the returned evaluation equals the averaged
`scientific_breakthrough_potential` bucket (fed by the Demis Hassabis
signal), not the `innovation_potential` bucket (fed by the Sebastian
Thrun signal); the latter bucket contributes only to the overall score,
and the other two dedicated headline fields carry the market and
technical buckets. -/
theorem c9_innovation_headline_is_breakthrough_bucket
    (idea : String) (llm : LLMResult) (m : InsightsMap) (ev : ProductEvaluation)
    (h : combineInsights idea llm m = .ok ev) :
    ev.innovation_potential = (avgScores m).scientific_breakthrough_potential
    ∧ (avgScores m).scientific_breakthrough_potential
        = (match getHassabis m with
           | some s => s.scientific_breakthrough_potential
           | none => 0)
    ∧ (avgScores m).innovation_potential
        = (match getThrun m with
           | some s => s.innovation_potential
           | none => 0)
    ∧ ev.market_potential = (avgScores m).market_potential
    ∧ ev.technical_feasibility = (avgScores m).technical_feasibility
    ∧ ev.overall_score
        = ((avgScores m).opportunity_score + (avgScores m).market_potential
            + (avgScores m).technical_feasibility
            + (avgScores m).scientific_breakthrough_potential
            + (avgScores m).ai_infrastructure
            + (avgScores m).innovation_potential) / 6 := by
  unfold combineInsights at h
  cases hA : getAdvisor m with
  | some r =>
      rw [hA] at h
      exact absurd h (by simp)
  | none =>
      rw [hA] at h
      cases hR : generateRecommendations llm with
      | error e =>
          rw [hR] at h
          exact absurd h (by simp)
      | ok recs =>
          rw [hR] at h
          dsimp only at h
          have hev := (Except.ok.inj h).symm
          subst hev
          refine ⟨rfl, ?_, ?_, rfl, rfl, rfl⟩
          · cases hH : getHassabis m <;>
              simp [avgScores, sumScores, countScores, avgField, optScore, optCount, hH]
          · cases hT : getThrun m <;>
              simp [avgScores, sumScores, countScores, avgField, optScore, optCount, hT]

/-- Witness for C9: with only the Sebastian Thrun persona present
(innovation score 1), the returned headline `innovation_potential` is 0
(the empty breakthrough bucket) while the `innovation_potential` bucket
is 1 and surfaces only in the overall score 1/6. -/
theorem c9_innovation_headline_witness :
    combineInsights "i" (.ok "```x```")
        [("Sebastian Thrun", some (.thrun ⟨0, 0, 1, "", [], []⟩))]
      = .ok { product_idea := "i", overall_score := 1 / 6, market_potential := 0,
              technical_feasibility := 0, innovation_potential := 0,
              key_insights := [], potential_risks := [],
              agent_insights := [("Sebastian Thrun", some (.thrun ⟨0, 0, 1, "", [], []⟩))],
              recommendations := fallbackRecommendations,
              project_recommendation := none }
    ∧ (0 : ℚ) =
        (avgScores [("Sebastian Thrun", some (.thrun ⟨0, 0, 1, "", [], []⟩))]).scientific_breakthrough_potential
    ∧ (avgScores [("Sebastian Thrun", some (.thrun ⟨0, 0, 1, "", [], []⟩))]).innovation_potential
        = 1 := by
  have hcomb : combineInsights "i" (.ok "```x```")
      [("Sebastian Thrun", some (.thrun ⟨0, 0, 1, "", [], []⟩))]
      = .ok { product_idea := "i", overall_score := 1 / 6, market_potential := 0,
              technical_feasibility := 0, innovation_potential := 0,
              key_insights := [], potential_risks := [],
              agent_insights := [("Sebastian Thrun", some (.thrun ⟨0, 0, 1, "", [], []⟩))],
              recommendations := fallbackRecommendations,
              project_recommendation := none } := by
    unfold combineInsights
    rw [show getAdvisor [("Sebastian Thrun", some (.thrun ⟨0, 0, 1, "", [], []⟩))] = none
          from rfl,
        show generateRecommendations (.ok "```x```") = .ok fallbackRecommendations
          from rfl]
    dsimp only
    simp only [avgScores, sumScores, countScores, keyInsights, potentialRisks,
      overallScore]
    rw [show getAltman [("Sebastian Thrun", some (.thrun ⟨0, 0, 1, "", [], []⟩))] = none from rfl,
        show getHassabis [("Sebastian Thrun", some (.thrun ⟨0, 0, 1, "", [], []⟩))] = none from rfl,
        show getMusk [("Sebastian Thrun", some (.thrun ⟨0, 0, 1, "", [], []⟩))] = none from rfl,
        show getDangelo [("Sebastian Thrun", some (.thrun ⟨0, 0, 1, "", [], []⟩))] = none from rfl,
        show getGross [("Sebastian Thrun", some (.thrun ⟨0, 0, 1, "", [], []⟩))] = none from rfl,
        show getThrun [("Sebastian Thrun", some (.thrun ⟨0, 0, 1, "", [], []⟩))] = some ⟨0, 0, 1, "", [], []⟩ from rfl,
        show getMostaque [("Sebastian Thrun", some (.thrun ⟨0, 0, 1, "", [], []⟩))] = none from rfl,
        show getDelangue [("Sebastian Thrun", some (.thrun ⟨0, 0, 1, "", [], []⟩))] = none from rfl]
    norm_num [Except.ok.injEq, ProductEvaluation.mk.injEq, avgField, optScore,
      optCount, optStrs]
  have hc := c9_innovation_headline_is_breakthrough_bucket "i" (.ok "```x```")
    [("Sebastian Thrun", some (.thrun ⟨0, 0, 1, "", [], []⟩))] _ hcomb
  refine ⟨hcomb, hc.1, ?_⟩
  rw [hc.2.2.1, show getThrun [("Sebastian Thrun", some (.thrun ⟨0, 0, 1, "", [], []⟩))]
        = some ⟨0, 0, 1, "", [], []⟩ from rfl]

/-- Claim C5: aggregation is independent of the order in which persona
results were produced.  For any duplicate-free insights dict and any
permutation of it, every score bucket, every headline value, the
insight/risk concatenations and the advisor slot are identical, and the
concatenated lists follow the fixed persona-registration order (Altman,
Hassabis, Musk, DAngelo, Gross, Thrun, Mostaque, Delangue) regardless of
the permutation. -/
theorem c5_aggregation_order_independent (l l' : InsightsMap)
    (hp : l.Perm l') (hn : (alistKeys l).Nodup) :
    avgScores l' = avgScores l
    ∧ overallScore (avgScores l') = overallScore (avgScores l)
    ∧ keyInsights l' = keyInsights l
    ∧ potentialRisks l' = potentialRisks l
    ∧ getAdvisor l' = getAdvisor l
    ∧ keyInsights l' =
        optStrs (getAltman l) (fun s => s.key_insights)
          ++ optStrs (getHassabis l) (fun s => s.key_breakthroughs)
          ++ optStrs (getMusk l) (fun s => s.key_insights)
          ++ optStrs (getDangelo l) (fun s => s.key_features)
          ++ optStrs (getGross l) (fun s => s.key_advantages)
          ++ optStrs (getThrun l) (fun s => s.key_innovations)
          ++ optStrs (getMostaque l) (fun s => s.key_infrastructure)
          ++ optStrs (getDelangue l) (fun s => s.key_ai_features) := by
  have hga : ∀ k, alistGet l' k = alistGet l k :=
    fun k => (alistGet_perm hp hn k).symm
  have hsv : ∀ k, slotVal l' k = slotVal l k := slotVal_congr hga
  obtain ⟨h1, h2, h3, h4⟩ := aggregate_congr hsv
  exact ⟨h1, by rw [h1], h2, h3, h4, h2⟩

/-- Witness for C5: a concrete two-persona dict and its swapped
completion order yield the same aggregation results. -/
theorem c5_aggregation_order_independent_witness :
    avgScores [("Demis Hassabis", (none : Option Insight)),
               ("Sam Altman", some (.altman ⟨1, 1, 1, "r", ["i1"], ["r1"]⟩))]
      = avgScores [("Sam Altman", some (.altman ⟨1, 1, 1, "r", ["i1"], ["r1"]⟩)),
                   ("Demis Hassabis", (none : Option Insight))]
    ∧ keyInsights [("Demis Hassabis", (none : Option Insight)),
                   ("Sam Altman", some (.altman ⟨1, 1, 1, "r", ["i1"], ["r1"]⟩))]
      = keyInsights [("Sam Altman", some (.altman ⟨1, 1, 1, "r", ["i1"], ["r1"]⟩)),
                     ("Demis Hassabis", (none : Option Insight))] := by
  have h := c5_aggregation_order_independent
    [("Sam Altman", some (.altman ⟨1, 1, 1, "r", ["i1"], ["r1"]⟩)),
     ("Demis Hassabis", (none : Option Insight))]
    [("Demis Hassabis", (none : Option Insight)),
     ("Sam Altman", some (.altman ⟨1, 1, 1, "r", ["i1"], ["r1"]⟩))]
    (List.Perm.swap _ _ _) (by decide)
  exact ⟨h.1, h.2.2.1⟩

/-- Claim C7: for every persona whose agent function raises,
`evaluate_product` catches the exception and records `None` in that
persona's slot (every enabled persona gets exactly its outcome's slot,
so siblings keep running), and the score buckets are computed only from
the present personas: dropping the `None` slots leaves every bucket, the
insight list and the risk list unchanged. -/
theorem c7_persona_failure_isolation (sel : Option (List String))
    (f : String → AgentOutcome) :
    (∀ n ∈ enabledAgentNames sel,
       alistGet (runAgents (enabledAgentNames sel) f) n = some (f n).toSlot)
    ∧ avgScores (runAgents (enabledAgentNames sel) f)
        = avgScores ((runAgents (enabledAgentNames sel) f).filter (fun e => e.2.isSome))
    ∧ keyInsights (runAgents (enabledAgentNames sel) f)
        = keyInsights ((runAgents (enabledAgentNames sel) f).filter (fun e => e.2.isSome))
    ∧ potentialRisks (runAgents (enabledAgentNames sel) f)
        = potentialRisks ((runAgents (enabledAgentNames sel) f).filter (fun e => e.2.isSome)) := by
  have hn : (alistKeys (runAgents (enabledAgentNames sel) f)).Nodup := by
    rw [runAgents_keys]
    exact enabledAgentNames_nodup sel
  have hsv : ∀ k,
      slotVal ((runAgents (enabledAgentNames sel) f).filter (fun e => e.2.isSome)) k
        = slotVal (runAgents (enabledAgentNames sel) f) k :=
    slotVal_filter hn
  obtain ⟨h1, h2, h3, _⟩ := aggregate_congr hsv
  exact ⟨fun n hmem => alistGet_runAgents (enabledAgentNames_nodup sel) f hmem,
    h1.symm, h2.symm, h3.symm⟩

/-- Witness for C7: with two personas selected and both raising, each
slot records `None` and the filtered aggregation agrees. -/
theorem c7_persona_failure_isolation_witness :
    alistGet (runAgents (enabledAgentNames (some ["Sam Altman", "Elon Musk"]))
        (fun _ => .raises)) "Sam Altman" = some none
    ∧ avgScores (runAgents (enabledAgentNames (some ["Sam Altman", "Elon Musk"]))
        (fun _ => .raises))
      = avgScores ((runAgents (enabledAgentNames (some ["Sam Altman", "Elon Musk"]))
          (fun _ => .raises)).filter (fun e => e.2.isSome)) := by
  have h := c7_persona_failure_isolation (some ["Sam Altman", "Elon Musk"])
    (fun _ => .raises)
  exact ⟨h.1 "Sam Altman" (by decide), h.2.1⟩

/-- Counterexample for C4: the claim says no registry operation can set
the privileged persona to disabled, but `_load_config` applies a stored
`enabled = false` to `project_advisor` like any other id, so constructing
a selector over a stored file that disables it yields `enabled = false`. -/
theorem c4_counterexample_load_disables_advisor :
    (alistGet (freshSelector
        (some [("project_advisor", { enabled := some false, priority := some 9 })]))
        "project_advisor").map (fun c => c.enabled)
      = some false := rfl

/-- Claim C4 (amended): `toggle_agent("project_advisor")` always returns
false and leaves the whole registry unchanged; after construction from
defaults the privileged persona is enabled; `set_agent_priority` (on any
id) and `toggle_agent` on any other id never change its enabled flag; and
a configuration load keeps it enabled provided the stored file has no
`project_advisor` entry carrying `enabled = false` — but a stored file
with such an entry does disable it (see the counterexample). -/
theorem c4_advisor_enabled_invariant :
    (∀ agents : AgentsMap, toggleAgent agents "project_advisor" = (false, agents))
    ∧ (alistGet defaultAgents "project_advisor").map (fun c => c.enabled) = some true
    ∧ (∀ (agents : AgentsMap) (id : String) (p : Int),
        (alistGet (setAgentPriority agents id p).2 "project_advisor").map
            (fun c => c.enabled)
          = (alistGet agents "project_advisor").map (fun c => c.enabled))
    ∧ (∀ (agents : AgentsMap) (id : String), id ≠ "project_advisor" →
        (alistGet (toggleAgent agents id).2 "project_advisor").map
            (fun c => c.enabled)
          = (alistGet agents "project_advisor").map (fun c => c.enabled))
    ∧ (∀ stored : StoredConfig,
        (∀ e : StoredEntry, ("project_advisor", e) ∈ stored →
            e.enabled.getD true = true) →
        (alistGet (freshSelector (some stored)) "project_advisor").map
            (fun c => c.enabled)
          = some true) := by
  refine ⟨?_, rfl, ?_, ?_, ?_⟩
  · intro agents
    by_cases h : "project_advisor" ∈ alistKeys agents <;>
      simp [toggleAgent, h]
  · intro agents id p
    unfold setAgentPriority
    by_cases h : id ∈ alistKeys agents
    · rw [if_pos h]
      exact alistGet_map_keep_enabled agents
        (fun c => { c with priority := p }) (fun c => rfl) id "project_advisor"
    · rw [if_neg h]
  · intro agents id hne
    unfold toggleAgent
    by_cases h : id ∈ alistKeys agents
    · rw [if_pos h, if_neg hne]
      dsimp only
      exact congrArg (Option.map (fun c => c.enabled))
        (alistGet_map_upd_ne agents (fun c => { c with enabled := !c.enabled })
          id "project_advisor" hne)
    · rw [if_neg h]
  · intro stored hst
    unfold freshSelector
    rw [loadConfig_get]
    cases hlast : lastEntry stored "project_advisor" with
    | none => rfl
    | some e =>
        have hen : e.enabled.getD true = true := hst e (lastEntry_mem hlast)
        rw [show alistGet defaultAgents "project_advisor"
              = some { name := "Project Advisor"
                       description := "Provides final recommendation and timeline based on all other agents"
                       priority := 9
                       enabled := true } from rfl]
        simp [updC, hen]

/-- Witness for C4 (amended): concrete instantiations of each guarded
part at the default registry. -/
theorem c4_advisor_enabled_invariant_witness :
    toggleAgent defaultAgents "project_advisor" = (false, defaultAgents)
    ∧ (alistGet (setAgentPriority defaultAgents "sam_altman" 3).2 "project_advisor").map
        (fun c => c.enabled)
      = (alistGet defaultAgents "project_advisor").map (fun c => c.enabled)
    ∧ (alistGet (toggleAgent defaultAgents "elon_musk").2 "project_advisor").map
        (fun c => c.enabled)
      = (alistGet defaultAgents "project_advisor").map (fun c => c.enabled)
    ∧ (alistGet (freshSelector (some [("sam_altman", { enabled := some false, priority := some 1 })]))
        "project_advisor").map (fun c => c.enabled) = some true := by
  refine ⟨c4_advisor_enabled_invariant.1 defaultAgents,
    c4_advisor_enabled_invariant.2.2.1 defaultAgents "sam_altman" 3,
    c4_advisor_enabled_invariant.2.2.2.1 defaultAgents "elon_musk" (by decide),
    c4_advisor_enabled_invariant.2.2.2.2
      [("sam_altman", { enabled := some false, priority := some 1 })] ?_⟩
  intro e he
  simp at he

/-- Claim C6: registry persistence round-trips.  For every registry state
and every id known both to the state and to the built-in defaults,
`set_agent_priority(id, p)` followed by constructing a fresh selector
over the saved file yields priority `p` for that id; stored files whose
ids are all unknown are ignored without error (the fresh registry equals
the defaults); and ids missing from the stored file keep their built-in
default configuration. -/
theorem c6_registry_persistence_roundtrip :
    (∀ (st : AgentsMap) (id : String) (p : Int),
        id ∈ alistKeys st → id ∈ alistKeys defaultAgents →
        (alistGet (freshSelector (some (saveConfig (setAgentPriority st id p).2))) id).map
            (fun c => c.priority)
          = some p)
    ∧ (∀ stored : StoredConfig,
        (∀ k ∈ alistKeys stored, k ∉ alistKeys defaultAgents) →
        freshSelector (some stored) = defaultAgents)
    ∧ (∀ (stored : StoredConfig) (id : String), id ∉ alistKeys stored →
        alistGet (freshSelector (some stored)) id = alistGet defaultAgents id) := by
  refine ⟨?_, ?_, ?_⟩
  · intro st id p hst hdef
    obtain ⟨hmap, hall⟩ := @setPriority_fixes st id p hst
    have hkeys : alistKeys (setAgentPriority st id p).2 = alistKeys st := by
      rw [hmap]
      exact alistKeys_map_upd st id (fun c => { c with priority := p })
    obtain ⟨e, he, hp⟩ :=
      @lastEntry_saveConfig (setAgentPriority st id p).2 id p
        (by rw [hkeys]; exact hst) hall
    unfold freshSelector
    rw [loadConfig_get, he]
    obtain ⟨c, hc⟩ := alistGet_isSome_of_mem hdef
    rw [hc]
    simp [updC, hp]
  · intro stored hdisj
    exact loadConfig_disjoint hdisj
  · intro stored id hns
    unfold freshSelector
    rw [loadConfig_get, lastEntry_eq_none hns]

/-- Witness for C6: setting `sam_altman` to priority 7 and reloading
yields 7; a stored file naming only an unknown id leaves the registry at
its defaults; an id absent from the stored file keeps its default. -/
theorem c6_registry_persistence_roundtrip_witness :
    (alistGet (freshSelector
        (some (saveConfig (setAgentPriority defaultAgents "sam_altman" 7).2)))
        "sam_altman").map (fun c => c.priority)
      = some 7
    ∧ freshSelector (some [("mystery_agent", { enabled := some false, priority := some 3 })])
        = defaultAgents
    ∧ alistGet (freshSelector
          (some [("sam_altman", { enabled := some true, priority := some 5 })]))
          "elon_musk"
        = alistGet defaultAgents "elon_musk" := by
  refine ⟨c6_registry_persistence_roundtrip.1 defaultAgents "sam_altman" 7
      (by decide) (by decide),
    c6_registry_persistence_roundtrip.2.1
      [("mystery_agent", { enabled := some false, priority := some 3 })] ?_,
    c6_registry_persistence_roundtrip.2.2
      [("sam_altman", { enabled := some true, priority := some 5 })] "elon_musk"
      (by decide)⟩
  intro k hk
  simp [alistKeys] at hk
  subst hk
  decide

/-- Counterexample for C8: the claim says the extraction returns the
parsed value of the *first balanced* brace or bracket span.  On
`"[1] \x7b"a": 2\x7d"` the first balanced span is the array `[1]`, but the
code probes braces first (first `\x7b` to last `\x7d`) and returns the object
— a different value. -/
theorem c8_counterexample_first_balanced_span :
    extractJsonFromResponse "[1] \x7b\"a\": 2\x7d" = some (.obj [("a", .num 2)])
    ∧ firstBalancedSpan "[1] \x7b\"a\": 2\x7d" = some "[1]"
    ∧ jsonLoads "[1]" = some (.arr [.num 1])
    ∧ Json.obj [("a", .num 2)] ≠ Json.arr [.num 1] :=
  ⟨rfl, rfl, rfl, fun h => Json.noConfusion h⟩

/-- Claim C8 (amended): `extract_json_from_response` parses the substring
from the first `\x7b` to the last `\x7d` when both exist in that order
(otherwise the substring from the first `[` to the last `]`), returning
its `json.loads` value when that parse succeeds and the no-result marker
otherwise — not the first balanced span; and for strings containing
neither `\x7b` nor `[` it returns the no-result marker rather than
raising. -/
theorem c8_extraction_characterisation :
    (∀ s : String,
       extractJsonFromResponse s =
         (match braceSlice s.data with
          | some t => jsonLoadsChars t
          | none =>
              match bracketSlice s.data with
              | some t => jsonLoadsChars t
              | none => none))
    ∧ (∀ s : String, (∀ c ∈ s.data, c ≠ '\x7b' ∧ c ≠ '[') →
        extractJsonFromResponse s = none) := by
  have hchar : ∀ s : String,
      extractJsonFromResponse s =
        (match braceSlice s.data with
         | some t => jsonLoadsChars t
         | none =>
             match bracketSlice s.data with
             | some t => jsonLoadsChars t
             | none => none) := by
    intro s
    unfold extractJsonFromResponse braceSlice bracketSlice
    dsimp only
    cases hbs : firstLastSlice s.data '\x7b' '\x7d' with
    | some t =>
        have hcond := (cond_iff_isSome s.data '\x7b' '\x7d').mpr (by rw [hbs]; rfl)
        rw [if_pos hcond, slice_val hbs]
    | none =>
        have hcond : ¬ (pyFind s.data '\x7b' ≥ 0
            ∧ pyRfind s.data '\x7d' + 1 > pyFind s.data '\x7b') := fun hc => by
          have := (cond_iff_isSome s.data '\x7b' '\x7d').mp hc
          rw [hbs] at this
          exact absurd this (by simp)
        rw [if_neg hcond]
        cases hks : firstLastSlice s.data '[' ']' with
        | some t =>
            have hcond2 := (cond_iff_isSome s.data '[' ']').mpr (by rw [hks]; rfl)
            rw [if_pos hcond2, slice_val hks]
        | none =>
            have hcond2 : ¬ (pyFind s.data '[' ≥ 0
                ∧ pyRfind s.data ']' + 1 > pyFind s.data '[') := fun hc => by
              have := (cond_iff_isSome s.data '[' ']').mp hc
              rw [hks] at this
              exact absurd this (by simp)
            rw [if_neg hcond2]
  refine ⟨hchar, ?_⟩
  intro s h
  rw [hchar s]
  have hb : s.data.findIdx? (fun x => x = '\x7b') = none := by
    rw [List.findIdx?_eq_none_iff]
    intro x hx
    simpa using (h x hx).1
  have hk : s.data.findIdx? (fun x => x = '[') = none := by
    rw [List.findIdx?_eq_none_iff]
    intro x hx
    simpa using (h x hx).2
  unfold braceSlice bracketSlice firstLastSlice
  rw [hb, hk]

/-- Witness for C8 (amended): the characterisation and the no-marker case
at the concrete input `"hello"`. -/
theorem c8_extraction_characterisation_witness :
    extractJsonFromResponse "hello" =
      (match braceSlice "hello".data with
       | some t => jsonLoadsChars t
       | none =>
           match bracketSlice "hello".data with
           | some t => jsonLoadsChars t
           | none => none)
    ∧ extractJsonFromResponse "hello" = none :=
  ⟨c8_extraction_characterisation.1 "hello",
   c8_extraction_characterisation.2 "hello" (by decide)⟩
